import Mathlib

/-!
Shallow embedding of the symbol-table module (src/src/tables.c).

Modelling conventions:

* The C stores entry number n at `table->tbl + sizeof(Symbol*) * n` (pointer
  arithmetic in units of `Symbol`), and every reader loop recomputes the same
  stride `sizeof(Symbol*) * i` for i below `table->len`.  The stride is a fixed
  positive constant used uniformly by the single writer and all readers, so the
  map from insertion index to storage offset is injective and store/load agree;
  functionally the backing store is the sequence of entries in insertion order.
  We embed it as a `List Symbol` and keep the offset arithmetic explicit in
  `get_symbol_offset_by_name` / `get_addr_for_symbol`, which traffic in raw
  offsets exactly as the C does.  The out-of-bounds consequences of writing at
  element offset `8 * n` inside an allocation sized in pointer units are memory
  layout, outside a shallow functional embedding (and are acknowledged as a
  defect, not behaviour, by the design notes).
* `table->len` is incremented exactly at the single append site, so it always
  equals the number of stored entries; we represent it as `tbl.length`.
* Machine integers: `addr` is the value of a `uint32_t` parameter; the only
  arithmetic on it is `% 4` and decimal printing, so it is a `Nat`.  The
  sentinel `(uint32_t)(-1)` returned by `get_symbol_offset_by_name` is the
  concrete value `4294967295`; a genuine offset is `8 * i` and hence never
  collides with it.
* The Logger is `write_to_log`; each call is modelled as one `LogEvent`
  (message formatting is out of scope per the spec).  The stray `printf`
  debugging lines in the C go to stdout, not to the Logger and not to the
  serialization sink, so they are not events of either interface.
* The serialization sink receives one string per `write_symbol` call; we model
  it as the list of those strings, in order.
* Allocation is idealized as always succeeding; `allocation_failed` (fatal,
  process exit) is therefore unreachable in the model.
-/

namespace Tables

/-- Mode constant: duplicates permitted (const int SYMTBL_NON_UNIQUE = 0). -/
def SYMTBL_NON_UNIQUE : Int := 0

/-- Mode constant: duplicate names rejected (const int SYMTBL_UNIQUE_NAME = 1). -/
def SYMTBL_UNIQUE_NAME : Int := 1

/-- Modelled from the spec: the constant SYMBOL_TABLE_MAX_DEFS comes from
tables.h, which is not under src/; the spec only requires a small positive
initial capacity and a fixed positive growth increment, so we pick 10. -/
def SYMBOL_TABLE_MAX_DEFS : Nat := 10

/-- Size of a Symbol pointer on the target (LP64) platform, the stride
`sizeof(Symbol*)` used by all offset computations in the C. -/
def SIZEOF_SYMBOL_PTR : Nat := 8

/-- The value of `(uint32_t)(-1)`, the not-found sentinel of
`get_symbol_offset_by_name` (and what the `int` literal `-1` converts to when
compared against a `uint32_t`). -/
def UINT32_MAX : Nat := 4294967295

/-- One table entry: an owned name string and a uint32 byte address. -/
structure Symbol where
  name : String
  addr : Nat

/-- The symbol table: entry sequence (see header note on `len`), capacity in
entries, and the mode stored verbatim by `create_table`. -/
structure SymbolTable where
  tbl : List Symbol
  cap : Nat
  mode : Int

/-- One call to the Logger (`write_to_log`), by which helper made it. -/
inductive LogEvent where
  | addr_alignment_incorrect
  | name_already_exists (name : String)
  deriving DecidableEq

/-- Result of `add_to_table`: the C return value, the table state after the
call, and the Logger calls made during the call, in order. -/
structure AddResult where
  ret : Int
  table : SymbolTable
  log : List LogEvent

/-- create_table: empty table, initial capacity SYMBOL_TABLE_MAX_DEFS, and the
mode argument stored unvalidated. -/
def create_table (mode : Int) : SymbolTable :=
  { tbl := [], cap := SYMBOL_TABLE_MAX_DEFS, mode := mode }

/-- The scan loop of is_name_in_table: 1 at the first strcmp match, else 0
after the loop. -/
def name_scan (entries : List Symbol) (name : String) : Int :=
  match entries with
  | [] => 0
  | s :: rest => if s.name = name then 1 else name_scan rest name

/-- is_name_in_table: early 0 on an empty table, else the scan loop. -/
def is_name_in_table (table : SymbolTable) (name : String) : Int :=
  if table.tbl.length = 0 then 0 else name_scan table.tbl name

/-- The scan loop of get_symbol_offset_by_name: at loop index i it computes the
element offset `sizeof(Symbol*) * i` and returns it at the first strcmp match;
after the loop it returns -1 (as uint32_t, UINT32_MAX). -/
def symbol_scan (entries : List Symbol) (name : String) (i : Nat) : Nat :=
  match entries with
  | [] => UINT32_MAX
  | s :: rest =>
      if s.name = name then SIZEOF_SYMBOL_PTR * i else symbol_scan rest name (i + 1)

/-- get_symbol_offset_by_name: early -1 (as uint32_t) on an empty table, else
the scan loop starting at index 0. -/
def get_symbol_offset_by_name (table : SymbolTable) (name : String) : Nat :=
  if table.tbl.length = 0 then UINT32_MAX else symbol_scan table.tbl name 0

/-- get_addr_for_symbol: compares the uint32 offset against -1 (i.e.
UINT32_MAX), otherwise dereferences `*(table->tbl + symbol_offset)`; in the
sequence view the entry at element offset `SIZEOF_SYMBOL_PTR * i` is entry i,
so the dereference divides the offset back by the stride. -/
def get_addr_for_symbol (table : SymbolTable) (name : String) : Int :=
  let symbol_offset := get_symbol_offset_by_name table name
  if symbol_offset = UINT32_MAX then -1
  else ((table.tbl.getD (symbol_offset / SIZEOF_SYMBOL_PTR) { name := "", addr := 0 }).addr : Int)

/-- write_symbol: the single line `fprintf(output, "%u\t%s\n", addr, name)`
sends to the sink: decimal address, one tab, the name, one newline. -/
def write_symbol (addr : Nat) (name : String) : String :=
  Nat.repr addr ++ "\t" ++ name ++ "\n"

/-- write_table: one write_symbol call per entry, loop index i reading the
entry at element offset `sizeof(Symbol*) * i`, i.e. entry i, in order. -/
def write_table (table : SymbolTable) : List String :=
  table.tbl.map (fun s => write_symbol s.addr s.name)

/-- add_to_table: alignment check, then (in unique mode) the duplicate-name
check with the C truthiness test `is_name_in_table(table, name)` being nonzero,
then growth by SYMBOL_TABLE_MAX_DEFS when `len >= cap`, then append of an owned
copy of the name with the address. -/
def add_to_table (table : SymbolTable) (name : String) (addr : Nat) : AddResult :=
  if addr % 4 ≠ 0 then
    { ret := -1, table := table, log := [LogEvent.addr_alignment_incorrect] }
  else if table.mode = SYMTBL_UNIQUE_NAME ∧ is_name_in_table table name ≠ 0 then
    { ret := -1, table := table, log := [LogEvent.name_already_exists name] }
  else
    let grown :=
      if table.tbl.length ≥ table.cap then
        { table with cap := table.cap + SYMBOL_TABLE_MAX_DEFS }
      else table
    { ret := 0,
      table := { grown with tbl := grown.tbl ++ [{ name := name, addr := addr }] },
      log := [] }

/-- Run a sequence of insertions against a fresh table of the given mode,
keeping only the table state (the reachable-state semantics of the module). -/
def run_adds (mode : Int) (ops : List (String × Nat)) : SymbolTable :=
  ops.foldl (fun t op => (add_to_table t op.1 op.2).table) (create_table mode)

/-- No two entries of the sequence share a name (byte-for-byte). -/
def distinct_names (l : List Symbol) : Prop :=
  l.Pairwise (fun s1 s2 => s1.name ≠ s2.name)

/-! Helper lemmas about the embedded operations. -/

theorem add_to_table_misaligned (t : SymbolTable) (n : String) (a : Nat)
    (h : a % 4 ≠ 0) :
    add_to_table t n a =
      { ret := -1, table := t, log := [LogEvent.addr_alignment_incorrect] } := by
  simp [add_to_table, h]

theorem add_to_table_duplicate (t : SymbolTable) (n : String) (a : Nat)
    (h1 : a % 4 = 0) (h2 : t.mode = SYMTBL_UNIQUE_NAME)
    (h3 : is_name_in_table t n ≠ 0) :
    add_to_table t n a =
      { ret := -1, table := t, log := [LogEvent.name_already_exists n] } := by
  simp [add_to_table, h1, h2, h3]

theorem add_to_table_success (t : SymbolTable) (n : String) (a : Nat)
    (h1 : a % 4 = 0)
    (h2 : ¬(t.mode = SYMTBL_UNIQUE_NAME ∧ is_name_in_table t n ≠ 0)) :
    add_to_table t n a =
      { ret := 0,
        table := { tbl := t.tbl ++ [{ name := n, addr := a }],
                   cap := if t.tbl.length ≥ t.cap then t.cap + SYMBOL_TABLE_MAX_DEFS else t.cap,
                   mode := t.mode },
        log := [] } := by
  rw [add_to_table, if_neg (by simp [h1]), if_neg h2]
  by_cases hc : t.tbl.length ≥ t.cap <;> simp [hc]

theorem add_to_table_mode (t : SymbolTable) (n : String) (a : Nat) :
    (add_to_table t n a).table.mode = t.mode := by
  rw [add_to_table]
  split
  · rfl
  · split
    · rfl
    · by_cases hc : t.tbl.length ≥ t.cap <;> simp [hc]

theorem name_scan_eq_zero_iff (l : List Symbol) (n : String) :
    name_scan l n = 0 ↔ ∀ s ∈ l, s.name ≠ n := by
  induction l with
  | nil => simp [name_scan]
  | cons x xs ih =>
      by_cases hx : x.name = n
      · simp [name_scan, hx]
      · simp [name_scan, hx, ih]

theorem is_name_in_table_eq_zero_iff (t : SymbolTable) (n : String) :
    is_name_in_table t n = 0 ↔ ∀ s ∈ t.tbl, s.name ≠ n := by
  rw [is_name_in_table]
  by_cases h : t.tbl.length = 0
  · rw [List.length_eq_zero] at h
    simp [h]
  · simp [h, name_scan_eq_zero_iff]

theorem is_name_in_table_ne_zero_of_mem (t : SymbolTable) (n : String)
    (hp : ∃ s ∈ t.tbl, s.name = n) : is_name_in_table t n ≠ 0 := by
  intro h0
  rcases hp with ⟨s, hs, hsn⟩
  exact ((is_name_in_table_eq_zero_iff t n).mp h0) s hs hsn

theorem symbol_scan_split (n : String) (x : Symbol) (rest : List Symbol)
    (hx : x.name = n) :
    ∀ (l : List Symbol) (i : Nat), (∀ s ∈ l, s.name ≠ n) →
      symbol_scan (l ++ x :: rest) n i = SIZEOF_SYMBOL_PTR * (i + l.length) := by
  intro l
  induction l with
  | nil =>
      intro i _
      simp [symbol_scan, hx]
  | cons y ys ih =>
      intro i h
      have hy : y.name ≠ n := h y (by simp)
      have hys : ∀ s ∈ ys, s.name ≠ n := fun s hs => h s (by simp [hs])
      rw [List.cons_append, symbol_scan, if_neg hy, ih (i + 1) hys]
      simp only [List.length_cons]
      ring

theorem getD_append_cons (x d : Symbol) :
    ∀ (l rest : List Symbol), (l ++ x :: rest).getD l.length d = x := by
  intro l
  induction l with
  | nil => intro rest; rfl
  | cons y ys ih => intro rest; simpa using ih rest

/-- Lookup on a table whose sequence splits as `l ++ x :: rest` with no match
in `l` and a match at `x` returns the address of `x`: the first match wins. -/
theorem get_addr_of_split (tb : SymbolTable) (n : String) (l rest : List Symbol)
    (x : Symbol) (htbl : tb.tbl = l ++ x :: rest) (hx : x.name = n)
    (hno : ∀ s ∈ l, s.name ≠ n) :
    get_addr_for_symbol tb n = (x.addr : Int) := by
  have hlen : tb.tbl.length ≠ 0 := by
    rw [htbl]
    simp
  have hscan : symbol_scan tb.tbl n 0 = SIZEOF_SYMBOL_PTR * l.length := by
    rw [htbl, symbol_scan_split n x rest hx l 0 hno]
    ring_nf
  have hoff : get_symbol_offset_by_name tb n = SIZEOF_SYMBOL_PTR * l.length := by
    rw [get_symbol_offset_by_name, if_neg hlen, hscan]
  have hne : SIZEOF_SYMBOL_PTR * l.length ≠ UINT32_MAX := by
    rw [SIZEOF_SYMBOL_PTR, UINT32_MAX]
    omega
  rw [get_addr_for_symbol]
  simp only [hoff, if_neg hne]
  rw [Nat.mul_div_cancel_left l.length (by rw [SIZEOF_SYMBOL_PTR]; omega), htbl,
    getD_append_cons]

theorem add_preserves_distinct (t : SymbolTable) (n : String) (a : Nat)
    (hm : t.mode = SYMTBL_UNIQUE_NAME) (hd : distinct_names t.tbl) :
    distinct_names (add_to_table t n a).table.tbl := by
  by_cases h1 : a % 4 ≠ 0
  · rw [add_to_table_misaligned t n a h1]
    exact hd
  · by_cases h3 : is_name_in_table t n ≠ 0
    · rw [add_to_table_duplicate t n a (by omega) hm h3]
      exact hd
    · have h3z : is_name_in_table t n = 0 := by omega
      have hno : ∀ s ∈ t.tbl, s.name ≠ n :=
        (is_name_in_table_eq_zero_iff t n).mp h3z
      rw [add_to_table_success t n a (by omega) (by simp [h3z])]
      rw [distinct_names, List.pairwise_append]
      refine ⟨hd, by simp, ?_⟩
      intro s hs y hy
      simp only [List.mem_singleton] at hy
      subst hy
      simpa using hno s hs

theorem run_adds_aux (ops : List (String × Nat)) :
    ∀ (t : SymbolTable), t.mode = SYMTBL_UNIQUE_NAME → distinct_names t.tbl →
      distinct_names
        (ops.foldl (fun t op => (add_to_table t op.1 op.2).table) t).tbl := by
  induction ops with
  | nil => intro t _ hd; exact hd
  | cons op rest ih =>
      intro t hm hd
      rw [List.foldl_cons]
      exact ih _ (by rw [add_to_table_mode, hm]) (add_preserves_distinct t op.1 op.2 hm hd)

/-! Claim theorems. -/

/-- C1 counterexample: the claim as stated only excludes an already-present
name in UniqueName mode, so a NonUnique table that already holds the name is
in scope; there, after a successful aligned insert of ("A", 4) into a table
already holding ("A", 0), lookup returns 0, not the just-inserted address 4. -/
theorem c1_counterexample :
    let t0 := create_table SYMTBL_NON_UNIQUE
    let r1 := add_to_table t0 "A" 0
    let r2 := add_to_table r1.table "A" 4
    (4 : Nat) % 4 = 0 ∧ r1.ret = 0 ∧ r2.ret = 0 ∧
      get_addr_for_symbol r2.table "A" = 0 ∧
      get_addr_for_symbol r2.table "A" ≠ 4 := by
  decide

/-- C1 (amended): for every table and every name/address pair where the
address is a multiple of 4 and the name is not already present in the table
(in any mode), add_to_table succeeds (returns 0) and get_addr_for_symbol
called with that same name immediately afterward returns exactly that
address. -/
theorem c1_insert_then_lookup (t : SymbolTable) (n : String) (a : Nat)
    (h1 : a % 4 = 0) (h2 : is_name_in_table t n = 0) :
    (add_to_table t n a).ret = 0 ∧
      get_addr_for_symbol (add_to_table t n a).table n = (a : Int) := by
  have hno : ∀ s ∈ t.tbl, s.name ≠ n := (is_name_in_table_eq_zero_iff t n).mp h2
  rw [add_to_table_success t n a h1 (by simp [h2])]
  refine ⟨rfl, ?_⟩
  exact get_addr_of_split _ n t.tbl [] { name := n, addr := a } rfl rfl hno

/-- C1 witness: fresh NonUnique table, insert ("A", 8), lookup gives 8. -/
theorem c1_witness :
    (8 : Nat) % 4 = 0 ∧
      is_name_in_table (create_table SYMTBL_NON_UNIQUE) "A" = 0 ∧
      ((add_to_table (create_table SYMTBL_NON_UNIQUE) "A" 8).ret = 0 ∧
        get_addr_for_symbol
          (add_to_table (create_table SYMTBL_NON_UNIQUE) "A" 8).table "A" =
          ((8 : Nat) : Int)) :=
  ⟨by decide, by decide,
    c1_insert_then_lookup (create_table SYMTBL_NON_UNIQUE) "A" 8 (by decide) (by decide)⟩

/-- Index access into a mapped line list, used for the C2 proof. -/
theorem getD_map_write (l : List Symbol) :
    ∀ i, i < l.length →
      (l.map (fun s => write_symbol s.addr s.name)).getD i "" =
        write_symbol (l.getD i { name := "", addr := 0 }).addr
          (l.getD i { name := "", addr := 0 }).name := by
  induction l with
  | nil => intro i hi; simp at hi
  | cons x xs ih =>
      intro i hi
      cases i with
      | zero => simp [List.getD]
      | succ j =>
          simp only [List.map_cons, List.getD_cons_succ]
          exact ih j (by simpa using hi)

/-- C2: write_table sends exactly one line per entry to the sink, in insertion
order, line i being the decimal address of entry i, one tab, its name, and one
newline, with nothing else; on a freshly created (empty) table it writes
nothing. -/
theorem c2_serialize_lines (t : SymbolTable) (i : Nat) (m : Int)
    (hi : i < t.tbl.length) :
    (write_table t).length = t.tbl.length ∧
      (write_table t).getD i "" =
        Nat.repr (t.tbl.getD i { name := "", addr := 0 }).addr ++ "\t" ++
          (t.tbl.getD i { name := "", addr := 0 }).name ++ "\n" ∧
      write_table (create_table m) = [] := by
  refine ⟨by simp [write_table], ?_, by simp [write_table, create_table]⟩
  rw [write_table, getD_map_write t.tbl i hi, write_symbol]

/-- C2 witness: a two-entry table, checked at line index 1. -/
theorem c2_witness :
    1 < ({ tbl := [{ name := "LOOP", addr := 0 }, { name := "END", addr := 8 }],
           cap := 10, mode := 1 } : SymbolTable).tbl.length ∧
      (write_table { tbl := [{ name := "LOOP", addr := 0 }, { name := "END", addr := 8 }],
                     cap := 10, mode := 1 }).length = 2 ∧
      (write_table { tbl := [{ name := "LOOP", addr := 0 }, { name := "END", addr := 8 }],
                     cap := 10, mode := 1 }).getD 1 "" = "8\tEND\n" ∧
      write_table (create_table SYMTBL_NON_UNIQUE) = [] := by
  have h := c2_serialize_lines
    { tbl := [{ name := "LOOP", addr := 0 }, { name := "END", addr := 8 }],
      cap := 10, mode := 1 } 1 SYMTBL_NON_UNIQUE (by decide)
  refine ⟨by decide, h.1, ?_, h.2.2⟩
  rw [h.2.1]
  decide

/-- C3: for every table, name, and misaligned address, add_to_table logs the
alignment error, returns -1, and leaves the table (hence its entry count)
unchanged. -/
theorem c3_misaligned_rejected (t : SymbolTable) (n : String) (a : Nat)
    (h : a % 4 ≠ 0) :
    (add_to_table t n a).ret = -1 ∧
      (add_to_table t n a).table = t ∧
      (add_to_table t n a).table.tbl.length = t.tbl.length ∧
      (add_to_table t n a).log = [LogEvent.addr_alignment_incorrect] := by
  rw [add_to_table_misaligned t n a h]
  exact ⟨rfl, rfl, rfl, rfl⟩

/-- C3 witness: address 3 on a fresh UniqueName table. -/
theorem c3_witness :
    (3 : Nat) % 4 ≠ 0 ∧
      ((add_to_table (create_table SYMTBL_UNIQUE_NAME) "X" 3).ret = -1 ∧
        (add_to_table (create_table SYMTBL_UNIQUE_NAME) "X" 3).table =
          create_table SYMTBL_UNIQUE_NAME ∧
        (add_to_table (create_table SYMTBL_UNIQUE_NAME) "X" 3).table.tbl.length =
          (create_table SYMTBL_UNIQUE_NAME).tbl.length ∧
        (add_to_table (create_table SYMTBL_UNIQUE_NAME) "X" 3).log =
          [LogEvent.addr_alignment_incorrect]) :=
  ⟨by decide, c3_misaligned_rejected (create_table SYMTBL_UNIQUE_NAME) "X" 3 (by decide)⟩

/-- C4: in UniqueName mode, inserting a name already present (byte-for-byte)
with any word-aligned address logs the duplicate-name error, returns -1, and
leaves the whole table, in particular its entry count and the prior entry for
that name, unchanged. -/
theorem c4_duplicate_rejected (t : SymbolTable) (n : String) (a : Nat)
    (hm : t.mode = SYMTBL_UNIQUE_NAME) (hp : ∃ s ∈ t.tbl, s.name = n)
    (ha : a % 4 = 0) :
    (add_to_table t n a).ret = -1 ∧
      (add_to_table t n a).table = t ∧
      (add_to_table t n a).table.tbl.length = t.tbl.length ∧
      get_addr_for_symbol (add_to_table t n a).table n = get_addr_for_symbol t n ∧
      (add_to_table t n a).log = [LogEvent.name_already_exists n] := by
  rw [add_to_table_duplicate t n a ha hm (is_name_in_table_ne_zero_of_mem t n hp)]
  exact ⟨rfl, rfl, rfl, rfl, rfl⟩

/-- C4 witness: table already holding ("A", 0), duplicate insert of ("A", 4). -/
theorem c4_witness :
    ({ tbl := [{ name := "A", addr := 0 }], cap := 10, mode := 1 } : SymbolTable).mode =
        SYMTBL_UNIQUE_NAME ∧
      (∃ s ∈ ({ tbl := [{ name := "A", addr := 0 }], cap := 10, mode := 1 } : SymbolTable).tbl,
        s.name = "A") ∧
      (4 : Nat) % 4 = 0 ∧
      ((add_to_table { tbl := [{ name := "A", addr := 0 }], cap := 10, mode := 1 } "A" 4).ret = -1 ∧
        (add_to_table { tbl := [{ name := "A", addr := 0 }], cap := 10, mode := 1 } "A" 4).log =
          [LogEvent.name_already_exists "A"]) := by
  have h := c4_duplicate_rejected
    { tbl := [{ name := "A", addr := 0 }], cap := 10, mode := 1 } "A" 4
    (by decide) (by decide) (by decide)
  exact ⟨by decide, by decide, by decide, h.1, h.2.2.2.2⟩

/-- C5: in NonUnique mode, inserting the same (previously absent) name twice
with two different word-aligned addresses succeeds both times, and lookup
afterwards returns the address from the first of the two insertions: the
first-inserted entry wins under the linear scan in insertion order. -/
theorem c5_nonunique_first_wins (t : SymbolTable) (n : String) (a1 a2 : Nat)
    (hm : t.mode = SYMTBL_NON_UNIQUE) (hn : is_name_in_table t n = 0)
    (h1 : a1 % 4 = 0) (h2 : a2 % 4 = 0) (hd : a1 ≠ a2) :
    (add_to_table t n a1).ret = 0 ∧
      (add_to_table (add_to_table t n a1).table n a2).ret = 0 ∧
      get_addr_for_symbol (add_to_table (add_to_table t n a1).table n a2).table n =
        (a1 : Int) := by
  have hno : ∀ s ∈ t.tbl, s.name ≠ n := (is_name_in_table_eq_zero_iff t n).mp hn
  have key : ∀ tb : SymbolTable, tb.mode = t.mode →
      ¬(tb.mode = SYMTBL_UNIQUE_NAME ∧ is_name_in_table tb n ≠ 0) := by
    intro tb htb h
    have h1u := h.1
    rw [htb, hm] at h1u
    exact absurd h1u (by decide)
  rw [add_to_table_success t n a1 h1 (key t rfl)]
  dsimp only
  generalize (if t.tbl.length ≥ t.cap then t.cap + SYMBOL_TABLE_MAX_DEFS else t.cap) = c
  have e2 := add_to_table_success ⟨t.tbl ++ [{ name := n, addr := a1 }], c, t.mode⟩ n a2 h2
    (key ⟨t.tbl ++ [{ name := n, addr := a1 }], c, t.mode⟩ rfl)
  rw [e2]
  refine ⟨rfl, rfl, ?_⟩
  exact get_addr_of_split _ n t.tbl [{ name := n, addr := a2 }]
    { name := n, addr := a1 } (by simp) rfl hno

/-- C5 witness: the NonUnique example of the spec, X at 0 then X at 4. -/
theorem c5_witness :
    (create_table SYMTBL_NON_UNIQUE).mode = SYMTBL_NON_UNIQUE ∧
      is_name_in_table (create_table SYMTBL_NON_UNIQUE) "X" = 0 ∧
      (0 : Nat) % 4 = 0 ∧ (4 : Nat) % 4 = 0 ∧ (0 : Nat) ≠ 4 ∧
      ((add_to_table (create_table SYMTBL_NON_UNIQUE) "X" 0).ret = 0 ∧
        (add_to_table (add_to_table (create_table SYMTBL_NON_UNIQUE) "X" 0).table "X" 4).ret = 0 ∧
        get_addr_for_symbol
          (add_to_table (add_to_table (create_table SYMTBL_NON_UNIQUE) "X" 0).table "X" 4).table
          "X" = ((0 : Nat) : Int)) :=
  ⟨by decide, by decide, by decide, by decide, by decide,
    c5_nonunique_first_wins (create_table SYMTBL_NON_UNIQUE) "X" 0 4
      (by decide) (by decide) (by decide) (by decide) (by decide)⟩

/-- C6: on a full table (length at least capacity), a successful insert grows
the capacity by SYMBOL_TABLE_MAX_DEFS, hence to a strictly larger capacity,
and the new entry sequence is the old one, unchanged and in order, with the
new entry appended. -/
theorem c6_growth_preserves_entries (t : SymbolTable) (n : String) (a : Nat)
    (ha : a % 4 = 0) (hfull : t.tbl.length ≥ t.cap)
    (hok : ¬(t.mode = SYMTBL_UNIQUE_NAME ∧ is_name_in_table t n ≠ 0)) :
    (add_to_table t n a).ret = 0 ∧
      (add_to_table t n a).table.cap = t.cap + SYMBOL_TABLE_MAX_DEFS ∧
      t.cap < (add_to_table t n a).table.cap ∧
      (add_to_table t n a).table.tbl = t.tbl ++ [{ name := n, addr := a }] := by
  rw [add_to_table_success t n a ha hok]
  refine ⟨rfl, ?_, ?_, rfl⟩
  · show (if t.tbl.length ≥ t.cap then t.cap + SYMBOL_TABLE_MAX_DEFS else t.cap) =
      t.cap + SYMBOL_TABLE_MAX_DEFS
    rw [if_pos hfull]
  · show t.cap <
      (if t.tbl.length ≥ t.cap then t.cap + SYMBOL_TABLE_MAX_DEFS else t.cap)
    rw [if_pos hfull, SYMBOL_TABLE_MAX_DEFS]
    omega

/-- C6 witness: a table at capacity 1 with one entry grows on the next insert
and keeps the old entry in front. -/
theorem c6_witness :
    (4 : Nat) % 4 = 0 ∧
      ({ tbl := [{ name := "A", addr := 0 }], cap := 1, mode := 0 } : SymbolTable).tbl.length ≥
        ({ tbl := [{ name := "A", addr := 0 }], cap := 1, mode := 0 } : SymbolTable).cap ∧
      ¬(({ tbl := [{ name := "A", addr := 0 }], cap := 1, mode := 0 } : SymbolTable).mode =
            SYMTBL_UNIQUE_NAME ∧
          is_name_in_table { tbl := [{ name := "A", addr := 0 }], cap := 1, mode := 0 } "B" ≠ 0) ∧
      ((add_to_table { tbl := [{ name := "A", addr := 0 }], cap := 1, mode := 0 } "B" 4).ret = 0 ∧
        (add_to_table { tbl := [{ name := "A", addr := 0 }], cap := 1, mode := 0 } "B" 4).table.cap =
          1 + SYMBOL_TABLE_MAX_DEFS ∧
        1 < (add_to_table { tbl := [{ name := "A", addr := 0 }], cap := 1, mode := 0 } "B" 4).table.cap ∧
        (add_to_table { tbl := [{ name := "A", addr := 0 }], cap := 1, mode := 0 } "B" 4).table.tbl =
          [{ name := "A", addr := 0 }] ++ [{ name := "B", addr := 4 }]) :=
  ⟨by decide, by decide, by decide,
    c6_growth_preserves_entries
      { tbl := [{ name := "A", addr := 0 }], cap := 1, mode := 0 } "B" 4
      (by decide) (by decide) (by decide)⟩

/-- C7: in every state reachable from an empty table created in UniqueName
mode by any sequence of add_to_table calls, no two stored entries share the
same name. -/
theorem c7_unique_mode_invariant (ops : List (String × Nat)) :
    distinct_names (run_adds SYMTBL_UNIQUE_NAME ops).tbl := by
  rw [run_adds]
  exact run_adds_aux ops (create_table SYMTBL_UNIQUE_NAME) rfl
    (by simp [create_table, distinct_names])

/-- C8: the alignment check precedes the duplicate-name check: on a UniqueName
table already containing the name, a misaligned insert of that same name logs
the alignment error (not the duplicate-name error) and returns -1. -/
theorem c8_alignment_checked_first (t : SymbolTable) (n : String) (a : Nat)
    (hm : t.mode = SYMTBL_UNIQUE_NAME) (hp : ∃ s ∈ t.tbl, s.name = n)
    (ha : a % 4 ≠ 0) :
    (add_to_table t n a).ret = -1 ∧
      (add_to_table t n a).log = [LogEvent.addr_alignment_incorrect] ∧
      (add_to_table t n a).log ≠ [LogEvent.name_already_exists n] := by
  rw [add_to_table_misaligned t n a ha]
  exact ⟨rfl, rfl, by simp⟩

/-- C8 witness: duplicate name "A" with misaligned address 3. -/
theorem c8_witness :
    ({ tbl := [{ name := "A", addr := 0 }], cap := 10, mode := 1 } : SymbolTable).mode =
        SYMTBL_UNIQUE_NAME ∧
      (∃ s ∈ ({ tbl := [{ name := "A", addr := 0 }], cap := 10, mode := 1 } : SymbolTable).tbl,
        s.name = "A") ∧
      (3 : Nat) % 4 ≠ 0 ∧
      ((add_to_table { tbl := [{ name := "A", addr := 0 }], cap := 10, mode := 1 } "A" 3).ret = -1 ∧
        (add_to_table { tbl := [{ name := "A", addr := 0 }], cap := 10, mode := 1 } "A" 3).log =
          [LogEvent.addr_alignment_incorrect] ∧
        (add_to_table { tbl := [{ name := "A", addr := 0 }], cap := 10, mode := 1 } "A" 3).log ≠
          [LogEvent.name_already_exists "A"]) :=
  ⟨by decide, by decide, by decide,
    c8_alignment_checked_first
      { tbl := [{ name := "A", addr := 0 }], cap := 10, mode := 1 } "A" 3
      (by decide) (by decide) (by decide)⟩

/-- C9 counterexample: the two recoverable failure conditions yield the same
return value -1, so the returned value alone cannot tell a misaligned address
from a duplicate name; only the logged events differ. -/
theorem c9_counterexample :
    let t : SymbolTable := { tbl := [{ name := "A", addr := 0 }], cap := 10, mode := 1 }
    let rmis := add_to_table t "B" 3
    let rdup := add_to_table t "A" 4
    (3 : Nat) % 4 ≠ 0 ∧ (4 : Nat) % 4 = 0 ∧
      rmis.log = [LogEvent.addr_alignment_incorrect] ∧
      rdup.log = [LogEvent.name_already_exists "A"] ∧
      rmis.ret = rdup.ret := by
  decide

/-- C9 (amended): both recoverable failure conditions are surfaced to the
immediate caller as the same failure value -1, distinguishable from success
(0) but not from each other by the return value alone; which condition
occurred is distinguished only by the logged message. -/
theorem c9_error_signalling (t : SymbolTable) (n : String) (a : Nat) :
    ((add_to_table t n a).ret = 0 ∨ (add_to_table t n a).ret = -1) ∧
      ((add_to_table t n a).ret = -1 ↔
        (a % 4 ≠ 0 ∨ (t.mode = SYMTBL_UNIQUE_NAME ∧ is_name_in_table t n ≠ 0))) ∧
      ((add_to_table t n a).log = [LogEvent.addr_alignment_incorrect] ↔ a % 4 ≠ 0) ∧
      ((add_to_table t n a).log = [LogEvent.name_already_exists n] ↔
        (a % 4 = 0 ∧ t.mode = SYMTBL_UNIQUE_NAME ∧ is_name_in_table t n ≠ 0)) := by
  by_cases h1 : a % 4 ≠ 0
  · rw [add_to_table_misaligned t n a h1]
    simp [h1]
  · have h1z : a % 4 = 0 := by omega
    by_cases h2 : t.mode = SYMTBL_UNIQUE_NAME ∧ is_name_in_table t n ≠ 0
    · obtain ⟨h2a, h2b⟩ := h2
      rw [add_to_table_duplicate t n a h1z h2a h2b]
      simp [h1z, h2a, h2b]
    · rw [add_to_table_success t n a h1z h2]
      simp [h1z, h2]

/-- C10: create_table stores any mode verbatim, and for every table whose
stored mode is not SYMTBL_UNIQUE_NAME, add_to_table behaves exactly as in
NonUnique mode (same return value, log, entries, capacity), permitting
duplicate names rather than failing fast. -/
theorem c10_mode_unvalidated (m : Int) (t : SymbolTable) (n : String) (a : Nat)
    (hm : t.mode ≠ SYMTBL_UNIQUE_NAME) :
    (create_table m).mode = m ∧
      ((add_to_table t n a).ret =
          (add_to_table { t with mode := SYMTBL_NON_UNIQUE } n a).ret ∧
        (add_to_table t n a).log =
          (add_to_table { t with mode := SYMTBL_NON_UNIQUE } n a).log ∧
        (add_to_table t n a).table.tbl =
          (add_to_table { t with mode := SYMTBL_NON_UNIQUE } n a).table.tbl ∧
        (add_to_table t n a).table.cap =
          (add_to_table { t with mode := SYMTBL_NON_UNIQUE } n a).table.cap) ∧
      (a % 4 = 0 → (add_to_table t n a).ret = 0) := by
  by_cases h1 : a % 4 ≠ 0
  · rw [add_to_table_misaligned t n a h1, add_to_table_misaligned _ n a h1]
    exact ⟨rfl, ⟨rfl, rfl, rfl, rfl⟩, fun h => absurd h h1⟩
  · have h1z : a % 4 = 0 := by omega
    have hcond : ¬(t.mode = SYMTBL_UNIQUE_NAME ∧ is_name_in_table t n ≠ 0) :=
      fun h => hm h.1
    have hcond0 : ¬(({ t with mode := SYMTBL_NON_UNIQUE } : SymbolTable).mode =
          SYMTBL_UNIQUE_NAME ∧
        is_name_in_table { t with mode := SYMTBL_NON_UNIQUE } n ≠ 0) := by
      intro h
      have h1u : SYMTBL_NON_UNIQUE = SYMTBL_UNIQUE_NAME := h.1
      exact absurd h1u (by decide)
    rw [add_to_table_success t n a h1z hcond, add_to_table_success _ n a h1z hcond0]
    exact ⟨rfl, ⟨rfl, rfl, rfl, rfl⟩, fun _ => rfl⟩

/-- C10 witness: mode 7 (neither recognized constant) permits inserting a
duplicate name. -/
theorem c10_witness :
    ({ tbl := [{ name := "A", addr := 0 }], cap := 10, mode := 7 } : SymbolTable).mode ≠
        SYMTBL_UNIQUE_NAME ∧
      (create_table 5).mode = 5 ∧
      (add_to_table { tbl := [{ name := "A", addr := 0 }], cap := 10, mode := 7 } "A" 4).ret = 0 := by
  refine ⟨by decide, ?_, ?_⟩
  · exact (c10_mode_unvalidated 5
      { tbl := [{ name := "A", addr := 0 }], cap := 10, mode := 7 } "A" 4 (by decide)).1
  · exact (c10_mode_unvalidated 5
      { tbl := [{ name := "A", addr := 0 }], cap := 10, mode := 7 } "A" 4 (by decide)).2.2
      (by decide)

/-- The worked example of the spec: create in UniqueName mode, LOOP at 0
succeeds, LOOP at 4 is a duplicate, END at 7 is misaligned, END at 8 succeeds,
and serialization yields the two expected lines. -/
theorem spec_worked_example :
    let t0 := create_table SYMTBL_UNIQUE_NAME
    let r1 := add_to_table t0 "LOOP" 0
    let r2 := add_to_table r1.table "LOOP" 4
    let r3 := add_to_table r2.table "END" 7
    let r4 := add_to_table r3.table "END" 8
    r1.ret = 0 ∧ r2.ret = -1 ∧ r2.table.tbl.length = 1 ∧
      r3.ret = -1 ∧ r3.table.tbl.length = 1 ∧ r4.ret = 0 ∧
      r4.table.tbl.length = 2 ∧
      write_table r4.table = ["0\tLOOP\n", "8\tEND\n"] ∧
      get_addr_for_symbol r4.table "MISSING" = -1 := by
  decide

end Tables
